import Mathlib

/-!
Verification of the concurrent request-serving core of the LRU caching HTTP
proxy in `lru_proxy_with_cache.c`.  The C code is shallowly embedded: the
cache is a head-first list of entries together with the `cache_size` counter,
machine `int` values are `Int`, byte buffers are `String` (an entry's `data`
payload is represented by its length `len`, since no verified property
inspects the response bytes), `malloc` outcomes are explicit `Bool`
parameters, and `time(NULL)` is an explicit `now : Nat` argument.  The worker
thread body is embedded as a pure function from the sequence of `recv`
outcomes to the list of side effects it performs; the concurrent admission
counter is embedded as a transition system whose atomic steps are the
mutex-protected critical sections of the C code.
-/

-- Compile-time constants, lru_proxy_with_cache.c lines 21-27.
def MAX_BYTES : Nat := 8192

def MAX_CLIENTS : Nat := 1200

def MAX_SIZE : Nat := 200 * (1 <<< 20)

def MAX_ELEMENT_SIZE : Nat := 10 * (1 <<< 20)

def QUEUE_SIZE : Nat := 2000

/-- Cache entry, `struct cache_element` (lines 30-39).  The `data` pointer is
represented only by its length `len` (no verified property reads the bytes);
`next`/`prev` links are represented by the position in the state's list. -/
structure cache_element where
  len : Nat
  url : String
  lru_time_track : Nat
  creation_time : Nat
  access_count : Nat
deriving DecidableEq, BEq

/-- Global cache state: `cache_head .. cache_tail` as a head-first list, plus
the `cache_size` counter (a C `int`, hence `Int`). -/
structure CacheState where
  entries : List cache_element
  size : Int
deriving DecidableEq, BEq

/-- The summand `lru->len + strlen(lru->url) + sizeof(cache_element)` used at
lines 425 and 436; `ov` stands for the platform constant
`sizeof(cache_element)`. -/
def elementContribution (ov : Nat) (e : cache_element) : Int :=
  ((e.len + e.url.length + ov : Nat) : Int)

/-- Sum of `elementContribution` over a list of entries. -/
def totalSize (ov : Nat) (l : List cache_element) : Int :=
  (l.map (elementContribution ov)).sum

/-- The scan of `remove_lru_element` (lines 406-417): walking from
`cache_tail` towards the head and replacing the candidate only on a strictly
smaller timestamp selects the tail-most entry attaining the minimal
`lru_time_track`.  Returns that entry and the remaining list in order. -/
def selectLRU : List cache_element → Option (cache_element × List cache_element)
  | [] => none
  | e :: rest =>
    match selectLRU rest with
    | none => some (e, [])
    | some (m, rest2) =>
      if e.lru_time_track < m.lru_time_track then some (e, rest)
      else some (m, e :: rest2)

/-- `remove_lru_element` (lines 398-432): no-op on the empty cache, otherwise
unlink the selected LRU entry and subtract its contribution from
`cache_size`. -/
def remove_lru_element (ov : Nat) (st : CacheState) : CacheState :=
  match selectLRU st.entries with
  | none => st
  | some (lru, rest) =>
    { entries := rest, size := st.size - elementContribution ov lru }

/-- The eviction loop of `add_to_cache` (lines 445-449):
`while (cache_size + element_size > MAX_SIZE && cache_tail) remove_lru_element();`
written with an explicit fuel; fuel `st.entries.length` is always enough since
every iteration removes one entry. -/
def makeSpaceFuel (ov : Nat) (es : Int) : Nat → CacheState → CacheState
  | 0, st => st
  | n + 1, st =>
    if st.size + es > ((MAX_SIZE : Nat) : Int) ∧ st.entries ≠ [] then
      makeSpaceFuel ov es n (remove_lru_element ov st)
    else st

/-- The eviction loop of `add_to_cache`, run with sufficient fuel. -/
def makeSpace (ov : Nat) (es : Int) (st : CacheState) : CacheState :=
  makeSpaceFuel ov es st.entries.length st

/-- `add_to_cache(data, size, url)` (lines 435-486).  `ov` is
`sizeof(cache_element)`; `allocOk` abstracts the outcome of the `malloc`
calls at lines 451-466 (on failure the function returns 0 after the eviction
loop has already run).  Returns the C function's 0/1 result as a `Bool`
together with the new state; the new entry is prepended at the head with
`access_count = 1` and both timestamps set to `now`. -/
def add_to_cache (ov : Nat) (allocOk : Bool) (size : Nat) (url : String)
    (now : Nat) (st : CacheState) : Bool × CacheState :=
  let element_size : Int := ((size + url.length + ov : Nat) : Int)
  if element_size > ((MAX_ELEMENT_SIZE : Nat) : Int) then (false, st)
  else
    let st1 := makeSpace ov element_size st
    if allocOk then
      let element : cache_element :=
        { len := size, url := url, lru_time_track := now,
          creation_time := now, access_count := 1 }
      (true, { entries := element :: st1.entries, size := st1.size + element_size })
    else (false, st1)

/-- The head-to-tail scan of `find_in_cache` (lines 345-347, 358-370): find
the first entry whose `url` equals the key and detach it, keeping the order
of the remaining entries. -/
def extractFirst (url : String) :
    List cache_element → Option (cache_element × List cache_element)
  | [] => none
  | e :: rest =>
    if e.url = url then some (e, rest)
    else
      match extractFirst url rest with
      | none => none
      | some (m, rest2) => some (m, e :: rest2)

/-- `find_in_cache(url)` (lines 342-395), sequential semantics: on a hit the
entry gets `lru_time_track = now`, `access_count + 1`, is moved to the front
of the recency list, and is returned; on a miss the state is unchanged. -/
def find_in_cache (now : Nat) (url : String) (st : CacheState) :
    Option cache_element × CacheState :=
  match extractFirst url st.entries with
  | none => (none, st)
  | some (e, rest) =>
    let promoted : cache_element :=
      { e with lru_time_track := now, access_count := e.access_count + 1 }
    (some promoted, { st with entries := promoted :: rest })

/-- Operations on the shared cache, for reasoning about arbitrary call
sequences. -/
inductive CacheOp where
  | insert (allocOk : Bool) (size : Nat) (url : String) (now : Nat)
  | evict
deriving DecidableEq

/-- One cache operation applied to a state. -/
def applyOp (ov : Nat) (st : CacheState) : CacheOp → CacheState
  | .insert allocOk size url now => (add_to_cache ov allocOk size url now st).2
  | .evict => remove_lru_element ov st

/-- A sequence of cache operations applied in order. -/
def applyOps (ov : Nat) (ops : List CacheOp) (st : CacheState) : CacheState :=
  ops.foldl (applyOp ov) st

/-- The `cache_size` counter equals the sum of the live entries'
contributions. -/
def sizeConsistent (ov : Nat) (st : CacheState) : Prop :=
  st.size = totalSize ov st.entries

instance (ov : Nat) (st : CacheState) : Decidable (sizeConsistent ov st) := by
  unfold sizeConsistent; infer_instance

/-- One iteration of the response-capture state of `handle_request_optimized`
(lines 289-314), acting on the pair `(total_received, buffer_size)` for one
`recv` chunk of `chunk` bytes: a chunk that fits is appended; otherwise, when
`total_received < MAX_ELEMENT_SIZE`, `buffer_size` is recomputed and the chunk
is kept only when the recomputed size still fits under `MAX_ELEMENT_SIZE`
(`buffer_size` is updated even when the chunk is dropped, exactly as in the C
code). -/
def captureStep (st : Nat × Nat) (chunk : Nat) : Nat × Nat :=
  if st.1 + chunk < st.2 then (st.1 + chunk, st.2)
  else if st.1 < MAX_ELEMENT_SIZE then
    let newSize := st.1 + chunk + MAX_BYTES
    if newSize ≤ MAX_ELEMENT_SIZE then (st.1 + chunk, newSize) else (st.1, newSize)
  else st

/-- Final `total_received` after the tee loop of `handle_request_optimized`
has consumed the given upstream `recv` chunk sizes (every chunk is forwarded
to the client regardless of whether it is captured). -/
def captureLoop (chunks : List Nat) : Nat :=
  (chunks.foldl captureStep (0, MAX_ELEMENT_SIZE)).1

/-- The raw request bytes of spec scenarios S1/S5, used verbatim as the cache
key (`temp_req`). -/
def s5Request : String :=
  "GET http://example.com/ HTTP/1.1\r\nHost: example.com\r\n\r\n"

/-- An upstream response of exactly `MAX_ELEMENT_SIZE + 1` bytes, delivered
as full `recv` chunks of `MAX_BYTES - 1` bytes followed by the remainder. -/
def oversizeChunks : List Nat := List.replicate 1280 8191 ++ [1281]

/-- The `switch (status_code)` of `sendErrorMessage` (lines 126-153): the
status text and HTML body for each supported code; unsupported codes
(including 503) fall to the `default` branch, where the function returns -1
without writing anything. -/
def statusInfo : Nat → Option (String × String)
  | 400 => some ("Bad Request",
      "<HTML><HEAD><TITLE>400 Bad Request</TITLE></HEAD>\n<BODY><H1>400 Bad Request</H1>\n</BODY></HTML>")
  | 403 => some ("Forbidden",
      "<HTML><HEAD><TITLE>403 Forbidden</TITLE></HEAD>\n<BODY><H1>403 Forbidden</H1><br>Permission Denied\n</BODY></HTML>")
  | 404 => some ("Not Found",
      "<HTML><HEAD><TITLE>404 Not Found</TITLE></HEAD>\n<BODY><H1>404 Not Found</H1>\n</BODY></HTML>")
  | 500 => some ("Internal Server Error",
      "<HTML><HEAD><TITLE>500 Internal Server Error</TITLE></HEAD>\n<BODY><H1>500 Internal Server Error</H1>\n</BODY></HTML>")
  | 501 => some ("Not Implemented",
      "<HTML><HEAD><TITLE>501 Not Implemented</TITLE></HEAD>\n<BODY><H1>501 Not Implemented</H1>\n</BODY></HTML>")
  | 505 => some ("HTTP Version Not Supported",
      "<HTML><HEAD><TITLE>505 HTTP Version Not Supported</TITLE></HEAD>\n<BODY><H1>505 HTTP Version Not Supported</H1>\n</BODY></HTML>")
  | _ => none

/-- `sendErrorMessage(socket, status_code)` (lines 116-167): the bytes
written on the socket, or `none` when the `switch` hits `default` and the
function returns -1 having written nothing.  `currentTime` stands for the
`strftime` result. -/
def sendErrorMessage (currentTime : String) (status_code : Nat) : Option String :=
  (statusInfo status_code).map fun p =>
    "HTTP/1.1 " ++ toString status_code ++ " " ++ p.1 ++
    "\r\nContent-Length: " ++ toString p.2.length ++
    "\r\nContent-Type: text/html\r\nConnection: keep-alive\r\nDate: " ++
    currentTime ++ "\r\nServer: HighPerformanceProxy/2.0\r\n\r\n" ++ p.2

/-- Observable actions of the admission check in `main`. -/
inductive AcceptEvent where
  | sendErr (resp : Option String)
  | closeClient
  | enqueue
deriving DecidableEq

/-- The admission block of `main` (lines 866-881): with the mutex held, a
count already at `MAX_CLIENTS` gets `sendErrorMessage(socket, 503)` and a
close and the count is left unchanged; otherwise the count is incremented
and the socket enqueued. -/
def acceptClient (currentTime : String) (count : Int) :
    List AcceptEvent × Int :=
  if count ≥ ((MAX_CLIENTS : Nat) : Int) then
    ([.sendErr (sendErrorMessage currentTime 503), .closeClient], count)
  else ([.enqueue], count + 1)

/-- Outcome of one `recv` call on the client socket: a data chunk (possibly
truncated by the buffer space passed to `recv`), orderly close (return 0), or
an error (return -1). -/
inductive RecvResult where
  | data (s : String)
  | closed
  | err
deriving DecidableEq

/-- The four bytes whose appearance ends the request-read loop. -/
def httpTerminator : List Char := ['\r', '\n', '\r', '\n']

/-- `strstr(buffer, "\r\n\r\n") != NULL`. -/
def containsTerminator : List Char → Bool
  | [] => false
  | c :: rest => httpTerminator.isPrefixOf (c :: rest) || containsTerminator rest

/-- Truncation of a delivered chunk to the byte count passed to `recv`
(the kernel writes at most `n` bytes into the buffer). -/
def strTake (s : String) (n : Nat) : String :=
  String.mk (s.toList.take n)

/-- One `additional = recv(client, buffer + strlen(buffer), MAX_BYTES -
strlen(buffer) - 1, 0)` call (lines 512-514): `none` models `additional ≤ 0`
(break); a data chunk is truncated to the remaining buffer space, and a
zero-byte result also breaks. -/
def recvStep (buf : String) (r : RecvResult) : Option String :=
  match r with
  | .closed => none
  | .err => none
  | .data s =>
    let space := MAX_BYTES - 1 - buf.length
    let got := strTake s space
    if got.length = 0 then none else some (buf ++ got)

/-- The accumulation loop at lines 511-516: keep reading while bytes have
been received and `\r\n\r\n` has not yet appeared. -/
def recvLoop : String → List RecvResult → String
  | buf, [] => buf
  | buf, r :: rest =>
    if containsTerminator buf.toList then buf
    else
      match recvStep buf r with
      | none => buf
      | some buf2 => recvLoop buf2 rest

/-- The whole request-read phase of `worker_thread` (lines 508-516): the
first `recv` (line 508) fills the empty buffer; a first result of `closed`
or `err` leaves `bytes_received ≤ 0` and an empty buffer. -/
def recvAccum (chunks : List RecvResult) : String :=
  match chunks with
  | [] => ""
  | r :: rest =>
    match r with
    | .closed => ""
    | .err => ""
    | .data s =>
      let first := strTake s (MAX_BYTES - 1)
      if first.length = 0 then "" else recvLoop first rest

/-- The collaborating parser's view of a request: `ParsedRequest_parse`
returning 0 yields the fields tested at lines 540-541 (`method`, `host`,
`path`, with `host`/`path` possibly NULL); returning -1 yields `none`. -/
structure ParsedReq where
  method : String
  host : Option String
  path : Option String
deriving DecidableEq

/-- Side effects of the worker body, in program order. -/
inductive WEvent where
  | sendResp (code : Nat)
  | serveFromCache
  | handleUpstream
  | closeClient
  | decrementActive
  | signalAvailable
deriving DecidableEq, BEq

/-- The body of `worker_thread` for one dequeued item (lines 494-563),
embedded as the list of observable effects: `allocOk` is the `calloc` at
line 498 (failure closes the socket and releases the admission slot at lines
500-505); otherwise the request is read (`recvAccum`), and when at least one
byte arrived and `strdup` succeeded the cache is consulted, then the parser
(`parse` abstracts `ParsedRequest_parse`); `handleOk` abstracts the result
of `handle_request_optimized` (negative → 500).  Every path ends with
close / decrement / signal (lines 557-563). -/
def worker_body (parse : String → Option ParsedReq)
    (allocOk strdupOk handleOk : Bool) (chunks : List RecvResult)
    (st : CacheState) (now : Nat) : List WEvent :=
  if allocOk then
    let buffer := recvAccum chunks
    let pre : List WEvent :=
      if 0 < buffer.length then
        if strdupOk then
          if (find_in_cache now buffer st).1.isSome then [.serveFromCache]
          else
            match parse buffer with
            | some r =>
              if r.method = "GET" ∧ r.host.isSome ∧ r.path.isSome then
                if handleOk then [.handleUpstream] else [.sendResp 500]
              else [.sendResp 501]
            | none => [.sendResp 400]
        else []
      else []
    pre ++ [.closeClient, .decrementActive, .signalAvailable]
  else [.closeClient, .decrementActive, .signalAvailable]

/-- `struct work_item` (lines 42-46); the peer address is informational and
omitted. -/
structure work_item where
  client_socket : Int
deriving DecidableEq

/-- `dequeue_request()` (lines 598-621), sequential semantics: the outer
`none` models blocking forever on `not_empty` (queue empty while the server
runs); otherwise the call returns: the sentinel `none` leaving the queue
untouched whenever `server_running` is false, else the FIFO head. -/
def dequeue_request (server_running : Bool) (queue : List work_item) :
    Option (Option work_item × List work_item) :=
  if server_running then
    match queue with
    | [] => none
    | i :: rest => some (some i, rest)
  else some (none, queue)

/-- State of the admission controller: the `active_connection_count` C `int`
together with a ghost count of clients that have been admitted (counter
incremented at line 874) and not yet released. -/
structure AdmState where
  active : Int
  inflight : Nat
deriving DecidableEq

/-- Atomic steps of the admission protocol; each constructor is one
mutex-protected critical section of the C code: `grant`/`reject` is the
accept block of `main` (lines 867-875), `release` is the decrement-and-signal
of `worker_thread` (lines 501-504 and 560-563), enabled only for a client a
worker actually holds, and `drop` is the `malloc` failure of
`enqueue_request` (lines 570-574), which closes the admitted socket without
ever decrementing the counter. -/
inductive AdmStep : AdmState → AdmState → Prop where
  | grant (s : AdmState) : s.active < ((MAX_CLIENTS : Nat) : Int) →
      AdmStep s ⟨s.active + 1, s.inflight + 1⟩
  | reject (s : AdmState) : s.active ≥ ((MAX_CLIENTS : Nat) : Int) →
      AdmStep s s
  | release (s : AdmState) : 0 < s.inflight →
      AdmStep s ⟨s.active - 1, s.inflight - 1⟩
  | drop (s : AdmState) : 0 < s.inflight →
      AdmStep s ⟨s.active, s.inflight - 1⟩

/-- States reachable from startup (`active_connection_count = 0`) by any
interleaving of the admission steps. -/
inductive AdmReachable : AdmState → Prop where
  | init : AdmReachable ⟨0, 0⟩
  | step {s t : AdmState} : AdmReachable s → AdmStep s t → AdmReachable t

/-- `selectLRU` fails exactly on the empty list. -/
theorem selectLRU_eq_none_iff (l : List cache_element) :
    selectLRU l = none ↔ l = [] := by
  cases l with
  | nil => simp [selectLRU]
  | cons e rest =>
    simp only [selectLRU]
    cases h : selectLRU rest with
    | none => simp
    | some p =>
      obtain ⟨m, rest2⟩ := p
      by_cases hlt : e.lru_time_track < m.lru_time_track <;> simp [hlt]

/-- `elementContribution` is non-negative. -/
theorem elementContribution_nonneg (ov : Nat) (e : cache_element) :
    0 ≤ elementContribution ov e := by
  unfold elementContribution; exact Int.natCast_nonneg _

/-- `selectLRU` splits the total size into the selected entry's contribution
and the rest. -/
theorem selectLRU_totalSize (ov : Nat) :
    ∀ {l : List cache_element} {m : cache_element} {rest : List cache_element},
      selectLRU l = some (m, rest) →
      totalSize ov l = elementContribution ov m + totalSize ov rest := by
  intro l
  induction l with
  | nil => intro m rest h; simp [selectLRU] at h
  | cons e tail ih =>
    intro m rest h
    simp only [selectLRU] at h
    split at h
    · next hsel =>
      simp only [Option.some.injEq, Prod.mk.injEq] at h
      obtain ⟨rfl, rfl⟩ := h
      have htail : tail = [] := (selectLRU_eq_none_iff tail).1 hsel
      subst htail
      simp [totalSize]
    · next m2 rest2 hsel =>
      split at h
      · simp only [Option.some.injEq, Prod.mk.injEq] at h
        obtain ⟨rfl, rfl⟩ := h
        simp [totalSize]
      · simp only [Option.some.injEq, Prod.mk.injEq] at h
        obtain ⟨rfl, rfl⟩ := h
        have ht := ih hsel
        simp only [totalSize, List.map_cons, List.sum_cons] at *
        omega

/-- `selectLRU` removes exactly one element. -/
theorem selectLRU_length :
    ∀ {l : List cache_element} {m : cache_element} {rest : List cache_element},
      selectLRU l = some (m, rest) → rest.length + 1 = l.length := by
  intro l
  induction l with
  | nil => intro m rest h; simp [selectLRU] at h
  | cons e tail ih =>
    intro m rest h
    simp only [selectLRU] at h
    split at h
    · next hsel =>
      simp only [Option.some.injEq, Prod.mk.injEq] at h
      obtain ⟨rfl, rfl⟩ := h
      have htail : tail = [] := (selectLRU_eq_none_iff tail).1 hsel
      subst htail
      rfl
    · next m2 rest2 hsel =>
      split at h
      · simp only [Option.some.injEq, Prod.mk.injEq] at h
        obtain ⟨rfl, rfl⟩ := h
        rfl
      · simp only [Option.some.injEq, Prod.mk.injEq] at h
        obtain ⟨rfl, rfl⟩ := h
        have ht := ih hsel
        simp only [List.length_cons]
        omega

/-- `remove_lru_element` preserves the consistency of `cache_size`. -/
theorem remove_lru_consistent (ov : Nat) (st : CacheState)
    (h : sizeConsistent ov st) :
    sizeConsistent ov (remove_lru_element ov st) := by
  unfold remove_lru_element
  cases hsel : selectLRU st.entries with
  | none => exact h
  | some p =>
    obtain ⟨m, rest⟩ := p
    have := selectLRU_totalSize ov hsel
    unfold sizeConsistent at h ⊢
    simp only []
    rw [h, this]
    omega

/-- `remove_lru_element` never increases `cache_size`. -/
theorem remove_lru_size_le (ov : Nat) (st : CacheState) :
    (remove_lru_element ov st).size ≤ st.size := by
  unfold remove_lru_element
  cases hsel : selectLRU st.entries with
  | none => exact le_refl _
  | some p =>
    obtain ⟨m, rest⟩ := p
    have := elementContribution_nonneg ov m
    simp only []
    omega

/-- `remove_lru_element` strictly shrinks a non-empty cache. -/
theorem remove_lru_length_lt (ov : Nat) (st : CacheState)
    (h : st.entries ≠ []) :
    (remove_lru_element ov st).entries.length < st.entries.length := by
  unfold remove_lru_element
  cases hsel : selectLRU st.entries with
  | none => exact absurd ((selectLRU_eq_none_iff _).1 hsel) h
  | some p =>
    obtain ⟨m, rest⟩ := p
    have := selectLRU_length hsel
    simp only []
    omega

/-- The eviction loop preserves the consistency of `cache_size`. -/
theorem makeSpaceFuel_consistent (ov : Nat) (es : Int) :
    ∀ (n : Nat) (st : CacheState), sizeConsistent ov st →
      sizeConsistent ov (makeSpaceFuel ov es n st) := by
  intro n
  induction n with
  | zero => intro st h; exact h
  | succ n ih =>
    intro st h
    unfold makeSpaceFuel
    split
    · exact ih _ (remove_lru_consistent ov st h)
    · exact h

/-- With fuel at least the number of entries, the eviction loop exits with
its guard false: either the new entry fits or the cache is empty. -/
theorem makeSpaceFuel_post (ov : Nat) (es : Int) :
    ∀ (n : Nat) (st : CacheState), st.entries.length ≤ n →
      (makeSpaceFuel ov es n st).size + es ≤ ((MAX_SIZE : Nat) : Int) ∨
        (makeSpaceFuel ov es n st).entries = [] := by
  intro n
  induction n with
  | zero =>
    intro st hlen
    right
    have : st.entries = [] := List.length_eq_zero.1 (Nat.le_zero.1 hlen)
    simpa [makeSpaceFuel] using this
  | succ n ih =>
    intro st hlen
    unfold makeSpaceFuel
    split
    · next hcond =>
      apply ih
      have := remove_lru_length_lt ov st hcond.2
      omega
    · next hcond =>
      rcases not_and_or.1 hcond with hsize | hne
      · left; omega
      · right; exact not_not.1 hne

/-- The eviction loop never increases `cache_size`. -/
theorem makeSpaceFuel_size_le (ov : Nat) (es : Int) :
    ∀ (n : Nat) (st : CacheState), (makeSpaceFuel ov es n st).size ≤ st.size := by
  intro n
  induction n with
  | zero => intro st; exact le_refl _
  | succ n ih =>
    intro st
    unfold makeSpaceFuel
    split
    · exact le_trans (ih _) (remove_lru_size_le ov st)
    · exact le_refl _

/-- When the new entry already fits, the eviction loop does nothing. -/
theorem makeSpace_id (ov : Nat) (es : Int) (st : CacheState)
    (h : st.size + es ≤ ((MAX_SIZE : Nat) : Int)) :
    makeSpace ov es st = st := by
  unfold makeSpace
  cases hn : st.entries.length with
  | zero => rfl
  | succ n =>
    unfold makeSpaceFuel
    rw [if_neg]
    intro hcond
    exact absurd h (not_le.2 hcond.1)

/-- Combined cache invariant: the `cache_size` counter is consistent and
bounded by `MAX_SIZE`. -/
def cacheInv (ov : Nat) (st : CacheState) : Prop :=
  sizeConsistent ov st ∧ st.size ≤ ((MAX_SIZE : Nat) : Int)

/-- The eviction loop (with its actual fuel) preserves consistency. -/
theorem makeSpace_consistent (ov : Nat) (es : Int) (st : CacheState)
    (h : sizeConsistent ov st) : sizeConsistent ov (makeSpace ov es st) :=
  makeSpaceFuel_consistent ov es st.entries.length st h

/-- On exit from the eviction loop either the new entry fits or the cache is
empty. -/
theorem makeSpace_post (ov : Nat) (es : Int) (st : CacheState) :
    (makeSpace ov es st).size + es ≤ ((MAX_SIZE : Nat) : Int) ∨
      (makeSpace ov es st).entries = [] :=
  makeSpaceFuel_post ov es st.entries.length st (le_refl _)

/-- The eviction loop never increases `cache_size`. -/
theorem makeSpace_size_le (ov : Nat) (es : Int) (st : CacheState) :
    (makeSpace ov es st).size ≤ st.size :=
  makeSpaceFuel_size_le ov es st.entries.length st

/-- `add_to_cache` preserves the consistency of `cache_size`. -/
theorem add_to_cache_consistent (ov : Nat) (allocOk : Bool) (size : Nat)
    (url : String) (now : Nat) (st : CacheState) (h : sizeConsistent ov st) :
    sizeConsistent ov (add_to_cache ov allocOk size url now st).2 := by
  have h1 : sizeConsistent ov (makeSpace ov ((size + url.length + ov : Nat) : Int) st) :=
    makeSpace_consistent ov _ st h
  simp only [add_to_cache]
  split
  · exact h
  · split
    · unfold sizeConsistent at h1 ⊢
      simp only [totalSize, List.map_cons, List.sum_cons]
      unfold totalSize at h1
      rw [h1]
      unfold elementContribution
      simp only []
      omega
    · exact h1

/-- `add_to_cache` preserves the combined invariant. -/
theorem add_to_cache_inv (ov : Nat) (allocOk : Bool) (size : Nat)
    (url : String) (now : Nat) (st : CacheState) (h : cacheInv ov st) :
    cacheInv ov (add_to_cache ov allocOk size url now st).2 := by
  refine ⟨add_to_cache_consistent ov allocOk size url now st h.1, ?_⟩
  have hmax : ((MAX_ELEMENT_SIZE : Nat) : Int) ≤ ((MAX_SIZE : Nat) : Int) := by decide
  have hnn : (0 : Int) ≤ ((size + url.length + ov : Nat) : Int) :=
    Int.natCast_nonneg _
  have hcons : sizeConsistent ov (makeSpace ov ((size + url.length + ov : Nat) : Int) st) :=
    makeSpace_consistent ov _ st h.1
  have hpost := makeSpace_post ov ((size + url.length + ov : Nat) : Int) st
  simp only [add_to_cache]
  split
  · exact h.2
  · next hbig =>
    have hes : ((size + url.length + ov : Nat) : Int) ≤ ((MAX_ELEMENT_SIZE : Nat) : Int) :=
      not_lt.1 hbig
    split
    · show (makeSpace ov ((size + url.length + ov : Nat) : Int) st).size +
        ((size + url.length + ov : Nat) : Int) ≤ ((MAX_SIZE : Nat) : Int)
      rcases hpost with hfit | hempty
      · exact hfit
      · unfold sizeConsistent at hcons
        rw [hempty] at hcons
        simp only [totalSize, List.map_nil, List.sum_nil] at hcons
        omega
    · show (makeSpace ov ((size + url.length + ov : Nat) : Int) st).size ≤
        ((MAX_SIZE : Nat) : Int)
      rcases hpost with hfit | hempty
      · omega
      · unfold sizeConsistent at hcons
        rw [hempty] at hcons
        simp only [totalSize, List.map_nil, List.sum_nil] at hcons
        omega

/-- `remove_lru_element` preserves the combined invariant. -/
theorem remove_lru_inv (ov : Nat) (st : CacheState) (h : cacheInv ov st) :
    cacheInv ov (remove_lru_element ov st) :=
  ⟨remove_lru_consistent ov st h.1, le_trans (remove_lru_size_le ov st) h.2⟩

/-- Every cache operation preserves the combined invariant. -/
theorem applyOp_inv (ov : Nat) (st : CacheState) (op : CacheOp)
    (h : cacheInv ov st) : cacheInv ov (applyOp ov st op) := by
  cases op with
  | insert allocOk size url now => exact add_to_cache_inv ov allocOk size url now st h
  | evict => exact remove_lru_inv ov st h

/-- Any sequence of cache operations preserves the combined invariant. -/
theorem applyOps_inv (ov : Nat) :
    ∀ (ops : List CacheOp) (st : CacheState), cacheInv ov st →
      cacheInv ov (applyOps ov ops st) := by
  intro ops
  induction ops with
  | nil => intro st h; exact h
  | cons op rest ih =>
    intro st h
    exact ih _ (applyOp_inv ov st op h)

/-- The entry found by `extractFirst url` has `url` as its key. -/
theorem extractFirst_url (url : String) :
    ∀ {l : List cache_element} {e : cache_element} {rest : List cache_element},
      extractFirst url l = some (e, rest) → e.url = url := by
  intro l
  induction l with
  | nil => intro e rest h; simp [extractFirst] at h
  | cons a tail ih =>
    intro e rest h
    simp only [extractFirst] at h
    by_cases ha : a.url = url
    · rw [if_pos ha] at h
      simp only [Option.some.injEq, Prod.mk.injEq] at h
      obtain ⟨rfl, rfl⟩ := h
      exact ha
    · rw [if_neg ha] at h
      cases htail : extractFirst url tail with
      | none => rw [htail] at h; simp at h
      | some p =>
        obtain ⟨m, rest2⟩ := p
        rw [htail] at h
        simp only [Option.some.injEq, Prod.mk.injEq] at h
        obtain ⟨rfl, rfl⟩ := h
        exact ih htail

/-- C2: at an admission rejection the code calls `sendErrorMessage(socket,
503)`, but the `switch` in `sendErrorMessage` has no case for 503, so the
call hits `default`, returns -1 and writes no bytes: the refused client is
closed without any HTTP response (though the counter is indeed left
unchanged).  This refutes the claim that a complete 503 response is
written. -/
theorem rejection_503_sends_no_response :
    (∀ currentTime : String, sendErrorMessage currentTime 503 = none) ∧
    acceptClient "Thu, 01 Jan 1970 00:00:00 GMT" ((MAX_CLIENTS : Nat) : Int) =
      ([AcceptEvent.sendErr none, AcceptEvent.closeClient],
       ((MAX_CLIENTS : Nat) : Int)) := by
  constructor
  · intro currentTime; rfl
  · rfl

/-- C3 counterexample: inserting key "k" into a cache that already holds an
entry with key "k" leaves TWO entries with that key — `add_to_cache` never
looks for a duplicate, so the old entry is neither replaced nor freed,
refuting "afterwards at most one entry with key k exists". -/
theorem insert_duplicate_key_counterexample :
    (((add_to_cache 64 true 4 "k" 1
          (add_to_cache 64 true 3 "k" 0 ⟨[], 0⟩).2).2.entries.filter
        (fun e => e.url == "k")).length = 2) := by decide

/-- C3 amended: `add_to_cache` performs no duplicate check; whenever the new
entry passes the per-entry ceiling and no eviction is needed, it simply
prepends the new entry at the head, so the number of entries with key `url`
grows by one (the old entry survives; `find_in_cache` returns the newer one
because it scans from the head). -/
theorem insert_prepends_without_dedup (ov : Nat) (size now : Nat)
    (url : String) (st : CacheState)
    (h1 : ((size + url.length + ov : Nat) : Int) ≤ ((MAX_ELEMENT_SIZE : Nat) : Int))
    (h2 : st.size + ((size + url.length + ov : Nat) : Int) ≤ ((MAX_SIZE : Nat) : Int)) :
    (add_to_cache ov true size url now st).2.entries =
      { len := size, url := url, lru_time_track := now, creation_time := now,
        access_count := 1 } :: st.entries ∧
    ((add_to_cache ov true size url now st).2.entries.filter
        (fun e => e.url == url)).length =
      (st.entries.filter (fun e => e.url == url)).length + 1 := by
  have hms := makeSpace_id ov ((size + url.length + ov : Nat) : Int) st h2
  have hfirst : (add_to_cache ov true size url now st).2.entries =
      { len := size, url := url, lru_time_track := now, creation_time := now,
        access_count := 1 } :: st.entries := by
    simp only [add_to_cache]
    rw [if_neg (not_lt.2 h1), hms]
    simp
  refine ⟨hfirst, ?_⟩
  rw [hfirst, List.filter_cons]
  simp

/-- C4: in every state reachable by any interleaving of the admission
steps — the mutex-protected check-then-increment of the accept path, the
decrement-and-signal of the worker release path, and the `enqueue_request`
allocation-failure drop — the counter satisfies
`0 ≤ active_connection_count ≤ MAX_CLIENTS`. -/
theorem admission_count_bounded (s : AdmState) (h : AdmReachable s) :
    0 ≤ s.active ∧ s.active ≤ ((MAX_CLIENTS : Nat) : Int) := by
  have key : ∀ t : AdmState, AdmReachable t →
      (t.inflight : Int) ≤ t.active ∧ 0 ≤ t.active ∧
        t.active ≤ ((MAX_CLIENTS : Nat) : Int) := by
    intro t ht
    induction ht with
    | init => refine ⟨by simp, le_refl 0, by decide⟩
    | step hr hstep ih =>
      obtain ⟨ih1, ih2, ih3⟩ := ih
      cases hstep with
      | grant hlt =>
        dsimp only
        refine ⟨?_, ?_, ?_⟩ <;> omega
      | reject hge => exact ⟨ih1, ih2, ih3⟩
      | release hpos =>
        dsimp only
        refine ⟨?_, ?_, ?_⟩ <;> omega
      | drop hpos =>
        dsimp only
        refine ⟨?_, ?_, ?_⟩ <;> omega
  exact ⟨(key s h).2.1, (key s h).2.2⟩

/-- C5: starting from the empty cache, after any sequence of `add_to_cache`
and `remove_lru_element` calls the sum over all live entries of
`len + strlen(url) + sizeof(cache_element)` is at most `MAX_SIZE`: the
eviction loop of `add_to_cache` removes LRU entries until the new entry fits
before linking it in. -/
theorem cache_total_size_bounded (ov : Nat) (ops : List CacheOp) :
    totalSize ov (applyOps ov ops { entries := [], size := 0 }).entries ≤
      ((MAX_SIZE : Nat) : Int) := by
  have h0 : cacheInv ov { entries := [], size := 0 } := by
    constructor
    · unfold sizeConsistent totalSize; simp
    · exact Int.natCast_nonneg _
  have h := applyOps_inv ov ops { entries := [], size := 0 } h0
  have h1 := h.1
  unfold sizeConsistent at h1
  rw [← h1]
  exact h.2

/-- C7: a lookup of a key present in the cache returns a hit, moves the
entry to the head of the recency list with `lru_time_track` set to the
current time and `access_count` incremented, and a second lookup of the same
key with no intervening operation hits again and keeps the key at the
head. -/
theorem lookup_hit_promotes_to_head (now1 now2 : Nat) (url : String)
    (st : CacheState) (e : cache_element) (rest : List cache_element)
    (h : extractFirst url st.entries = some (e, rest)) :
    find_in_cache now1 url st =
      (some { e with lru_time_track := now1, access_count := e.access_count + 1 },
       { st with entries :=
          { e with lru_time_track := now1, access_count := e.access_count + 1 } :: rest }) ∧
    ({ e with lru_time_track := now1, access_count := e.access_count + 1 } : cache_element).url = url ∧
    find_in_cache now2 url
        { st with entries :=
          { e with lru_time_track := now1, access_count := e.access_count + 1 } :: rest } =
      (some { e with lru_time_track := now2, access_count := e.access_count + 2 },
       { st with entries :=
          { e with lru_time_track := now2, access_count := e.access_count + 2 } :: rest }) := by
  have hu : e.url = url := extractFirst_url url h
  refine ⟨?_, hu, ?_⟩
  · unfold find_in_cache
    rw [h]
  · unfold find_in_cache
    have hx : extractFirst url
        ({ e with lru_time_track := now1, access_count := e.access_count + 1 } :: rest) =
        some ({ e with lru_time_track := now1, access_count := e.access_count + 1 }, rest) := by
      unfold extractFirst
      rw [if_pos hu]
    rw [hx]

/-- C7 witness: a concrete one-entry cache, looked up twice. -/
theorem lookup_hit_promotes_to_head_witness :
    find_in_cache 5 "k" ⟨[⟨9, "k", 0, 0, 1⟩], 74⟩ =
      (some ⟨9, "k", 5, 0, 2⟩, ⟨[⟨9, "k", 5, 0, 2⟩], 74⟩) ∧
    (⟨9, "k", 5, 0, 2⟩ : cache_element).url = "k" ∧
    find_in_cache 6 "k" ⟨[⟨9, "k", 5, 0, 2⟩], 74⟩ =
      (some ⟨9, "k", 6, 0, 3⟩, ⟨[⟨9, "k", 6, 0, 3⟩], 74⟩) :=
  lookup_hit_promotes_to_head 5 6 "k" ⟨[⟨9, "k", 0, 0, 1⟩], 74⟩
    ⟨9, "k", 0, 0, 1⟩ [] (by rfl)

/-- C8 counterexample: with the running flag cleared and one item still
queued, `dequeue_request` returns the sentinel `none` at once and leaves the
item in the queue — the queue is not drained first, refuting "returns the
sentinel only when the queue is empty". -/
theorem shutdown_dequeue_counterexample :
    dequeue_request false [⟨7⟩] = some (none, [⟨7⟩]) ∧
    ([⟨7⟩] : List work_item) ≠ [] := by decide

/-- C8 amended: once shutdown has been requested (`server_running = 0`),
every `dequeue_request` call returns the sentinel `none` immediately,
whether or not items remain queued; pending items are abandoned, not
drained. -/
theorem shutdown_dequeue_immediate_sentinel (queue : List work_item) :
    dequeue_request false queue = some (none, queue) := rfl

/-- C9: the `cache_size` counter stays equal to the sum over all reachable
entries of `len + strlen(url) + sizeof(cache_element)`: from any consistent
state, `add_to_cache` adds exactly the new entry's contribution (after the
eviction loop subtracted exactly the removed entries' contributions) and
`remove_lru_element` subtracts exactly the removed entry's contribution. -/
theorem cache_size_counter_consistent (ov : Nat) (st : CacheState)
    (h : sizeConsistent ov st) (allocOk : Bool) (size : Nat) (url : String)
    (now : Nat) :
    sizeConsistent ov (add_to_cache ov allocOk size url now st).2 ∧
    sizeConsistent ov (remove_lru_element ov st) :=
  ⟨add_to_cache_consistent ov allocOk size url now st h,
   remove_lru_consistent ov st h⟩

/-- C9 witness: a concrete consistent one-entry state (`sizeof` taken as
64). -/
theorem cache_size_counter_consistent_witness :
    sizeConsistent 64 (add_to_cache 64 true 2 "mm" 5 ⟨[⟨3, "k", 0, 0, 1⟩], 68⟩).2 ∧
    sizeConsistent 64 (remove_lru_element 64 ⟨[⟨3, "k", 0, 0, 1⟩], 68⟩) :=
  cache_size_counter_consistent 64 ⟨[⟨3, "k", 0, 0, 1⟩], 68⟩ (by decide)
    true 2 "mm" 5

/-- C3 witness: inserting key "k" into a small cache already holding "k"
(`sizeof` taken as 64): the new entry is prepended and the key count grows
from 1 to 2. -/
theorem insert_prepends_without_dedup_witness :
    (add_to_cache 64 true 4 "k" 1 ⟨[⟨3, "k", 0, 0, 1⟩], 68⟩).2.entries =
      ⟨4, "k", 1, 1, 1⟩ :: [⟨3, "k", 0, 0, 1⟩] ∧
    ((add_to_cache 64 true 4 "k" 1 ⟨[⟨3, "k", 0, 0, 1⟩], 68⟩).2.entries.filter
        (fun e => e.url == "k")).length =
      (([⟨3, "k", 0, 0, 1⟩] : List cache_element).filter
        (fun e => e.url == "k")).length + 1 :=
  insert_prepends_without_dedup 64 4 1 "k" ⟨[⟨3, "k", 0, 0, 1⟩], 68⟩
    (by decide) (by decide)

/-- C4 witness: the state reached by one admitted accept from startup. -/
theorem admission_count_bounded_witness :
    (0 : Int) ≤ (⟨1, 1⟩ : AdmState).active ∧
      (⟨1, 1⟩ : AdmState).active ≤ ((MAX_CLIENTS : Nat) : Int) :=
  admission_count_bounded ⟨1, 1⟩
    (AdmReachable.step AdmReachable.init (AdmStep.grant ⟨0, 0⟩ (by decide)))

/-- While the captured total stays strictly below `buffer_size` (which the
replicated full chunks keep at `MAX_ELEMENT_SIZE`), every chunk is stored and
`total_received` just accumulates. -/
theorem captureStep_replicate (k : Nat) :
    ∀ (t : Nat) (rest : List Nat), t + 8191 * k < MAX_ELEMENT_SIZE →
      List.foldl captureStep (t, MAX_ELEMENT_SIZE) (List.replicate k 8191 ++ rest) =
        List.foldl captureStep (t + 8191 * k, MAX_ELEMENT_SIZE) rest := by
  induction k with
  | zero => intro t rest h; simp
  | succ k ih =>
    intro t rest h
    rw [List.replicate_succ, List.cons_append, List.foldl_cons]
    have hstep : captureStep (t, MAX_ELEMENT_SIZE) 8191 = (t + 8191, MAX_ELEMENT_SIZE) := by
      have hlt : t + 8191 < MAX_ELEMENT_SIZE := by omega
      unfold captureStep
      dsimp only
      rw [if_pos hlt]
    rw [hstep, ih (t + 8191) rest (by omega)]
    have harith : t + 8191 + 8191 * k = t + 8191 * (k + 1) := by ring
    rw [harith]

/-- C1 (code bug): an upstream response of `MAX_ELEMENT_SIZE + 1` bytes
(spec scenario S5), delivered as 1280 full chunks of 8191 bytes and a final
chunk of 1281 bytes, is captured only up to 10484480 bytes — the tee loop
silently drops the chunks that no longer fit — and `add_to_cache` then
INSERTS this truncated prefix (10484480 + 55 + 64 ≤ MAX_ELEMENT_SIZE), so a
second identical request is a cache HIT served from the truncated entry.
This refutes "the response is not inserted into the cache" and "a second
identical request is a cache miss". -/
theorem oversize_truncated_capture_is_cached :
    oversizeChunks.sum = MAX_ELEMENT_SIZE + 1 ∧
    captureLoop oversizeChunks = 10484480 ∧
    (add_to_cache 64 true (captureLoop oversizeChunks) s5Request 0 ⟨[], 0⟩).1 = true ∧
    (find_in_cache 1 s5Request
        (add_to_cache 64 true (captureLoop oversizeChunks) s5Request 0
          ⟨[], 0⟩).2).1.isSome = true := by
  have hchunks : oversizeChunks = List.replicate 1280 8191 ++ [1281] := rfl
  have hcap : captureLoop oversizeChunks = 10484480 := by
    rw [captureLoop, hchunks, captureStep_replicate 1280 0 [1281] (by decide)]
    decide
  have hsum : oversizeChunks.sum = MAX_ELEMENT_SIZE + 1 := by
    rw [hchunks, List.sum_append, List.sum_replicate, smul_eq_mul]
    decide
  rw [hcap, hsum]
  refine ⟨rfl, rfl, by decide, by decide⟩

/-- C6 counterexample: a client that closes the connection before sending
any byte (the first `recv` returns 0, so `\r\n\r\n` was never accumulated)
gets NO response at all — the worker simply frees the buffer, closes the
socket and releases the admission slot — refuting "the handler responds with
a 400 error response before closing the socket". -/
theorem premature_close_counterexample :
    worker_body (fun _ => none) true true true [RecvResult.closed] ⟨[], 0⟩ 0 =
      [WEvent.closeClient, WEvent.decrementActive, WEvent.signalAvailable] ∧
    (worker_body (fun _ => none) true true true [RecvResult.closed] ⟨[], 0⟩ 0).count
        (WEvent.sendResp 400) = 0 := by
  refine ⟨by decide, by decide⟩

/-- C6 amended: when the peer closes or a receive error occurs before ANY
byte has been received (or the first chunk is empty), the worker sends no
response at all and just closes the socket; when at least one byte was
received but the terminator never arrived — peer close, receive error, or
the buffer reaching `MAX_BYTES - 1` all end the read loop the same way — the
truncated buffer is processed normally, and a 400 is sent exactly when the
parser rejects it (a parseable prefix instead leads to the 501/500/upstream
paths). -/
theorem premature_close_amended (parse : String → Option ParsedReq)
    (strdupOk handleOk : Bool) (chunks : List RecvResult) (st : CacheState)
    (now : Nat) :
    ((recvAccum chunks).length = 0 →
      worker_body parse true strdupOk handleOk chunks st now =
        [WEvent.closeClient, WEvent.decrementActive, WEvent.signalAvailable]) ∧
    (0 < (recvAccum chunks).length → strdupOk = true →
      (find_in_cache now (recvAccum chunks) st).1 = none →
      (WEvent.sendResp 400 ∈ worker_body parse true strdupOk handleOk chunks st now ↔
        parse (recvAccum chunks) = none)) := by
  constructor
  · intro h0
    simp [worker_body, h0]
  · intro h1 hsd hmiss
    subst hsd
    have hsome : (find_in_cache now (recvAccum chunks) st).1.isSome = false := by
      rw [hmiss]; rfl
    simp only [worker_body, eq_self_iff_true, if_true, if_pos h1, hsome,
      Bool.false_eq_true, if_false]
    cases hp : parse (recvAccum chunks) with
    | none => simp
    | some r =>
      simp only [reduceCtorEq, iff_false]
      intro hmem
      rw [List.mem_append] at hmem
      rcases hmem with hmem | hmem
      · split at hmem
        · split at hmem <;> simp_all
        · simp_all
      · simp_all

/-- C6 amended witness: a zero-byte connection gets no response; a one-byte
connection whose buffer the parser rejects gets the 400. -/
theorem premature_close_amended_witness :
    worker_body (fun _ => none) true true true [RecvResult.err] ⟨[], 0⟩ 0 =
      [WEvent.closeClient, WEvent.decrementActive, WEvent.signalAvailable] ∧
    WEvent.sendResp 400 ∈
      worker_body (fun _ => none) true true true [RecvResult.data "X"] ⟨[], 0⟩ 0 :=
  ⟨(premature_close_amended (fun _ => none) true true [RecvResult.err]
      ⟨[], 0⟩ 0).1 (by rfl),
   ((premature_close_amended (fun _ => none) true true [RecvResult.data "X"]
      ⟨[], 0⟩ 0).2 (by decide) rfl (by rfl)).mpr rfl⟩

/-- C10: for every dequeued work item, on every path of the worker body —
`calloc` failure, receive failure, cache hit, and the parse/dispatch/upstream
branches — the client socket is closed exactly once and the admission
counter is decremented exactly once with `connection_available` signaled. -/
theorem worker_cleanup_exactly_once (parse : String → Option ParsedReq)
    (allocOk strdupOk handleOk : Bool) (chunks : List RecvResult)
    (st : CacheState) (now : Nat) :
    (worker_body parse allocOk strdupOk handleOk chunks st now).count
        WEvent.closeClient = 1 ∧
    (worker_body parse allocOk strdupOk handleOk chunks st now).count
        WEvent.decrementActive = 1 ∧
    (worker_body parse allocOk strdupOk handleOk chunks st now).count
        WEvent.signalAvailable = 1 := by
  cases allocOk with
  | false => exact ⟨rfl, rfl, rfl⟩
  | true =>
    refine ⟨?_, ?_, ?_⟩ <;>
    · simp only [worker_body, eq_self_iff_true, if_true]
      rw [List.count_append]
      repeat' split
      all_goals decide
